import Mathlib

/-!
A shallow embedding of the transaction-processing ledger of
`process-transactions` (src/main.rs).  The Rust code stores amounts and
balances as `f64`; the embedding models them as exact rationals `ℚ`.  The
two `HashMap`s (clients, revertable transactions) are modelled as
association lists with insert-or-replace semantics, and the `HashSet` of
disputed transaction ids as a list kept duplicate-free by the insert
operation.  Client ids (`u16`) and transaction ids (`u32`) are modelled as
`ℕ`; none of the processing logic depends on their bit width.
-/

/-- The decoded input record (`struct Transaction`, src/main.rs lines 12-19):
a type keyword, a client id, a transaction id and an optional amount.  The
serde decoder places no constraint on the sign of the amount. -/
structure Transaction where
  tr_type : String
  client : ℕ
  tx : ℕ
  amount : Option ℚ
deriving DecidableEq, Repr

/-- The per-client account state (`struct Client`, src/main.rs lines 21-28). -/
structure Client where
  client : ℕ
  available : ℚ
  held : ℚ
  total : ℚ
  locked : Bool
deriving DecidableEq, Repr

/-- Lookup in an association list, the model of `HashMap::get`. -/
def lookup {α : Type} (k : ℕ) : List (ℕ × α) → Option α
  | [] => none
  | (k', v) :: rest => if k' = k then some v else lookup k rest

/-- Insert-or-replace in an association list, the model of `HashMap::insert`
(and of mutation through `entry`/`get_mut`). -/
def insertA {α : Type} (k : ℕ) (v : α) : List (ℕ × α) → List (ℕ × α)
  | [] => [(k, v)]
  | (k', v') :: rest => if k' = k then (k, v) :: rest else (k', v') :: insertA k v rest

/-- Set insert, the model of `HashSet::insert`. -/
def insertS (t : ℕ) (l : List ℕ) : List ℕ :=
  if t ∈ l then l else t :: l

/-- Set removal, the model of `HashSet::remove`. -/
def eraseS (t : ℕ) (l : List ℕ) : List ℕ :=
  l.filter (fun x => x ≠ t)

/-- The ledger state (`struct Model`, src/main.rs lines 30-34). -/
structure Model where
  clients : List (ℕ × Client)
  revertable_transactions : List (ℕ × Transaction)
  disputed_transactions : List ℕ
deriving DecidableEq, Repr

/-- `Model::new` (src/main.rs lines 37-43): all three containers empty. -/
def Model.new : Model := ⟨[], [], []⟩

/-- `Model::process_revertable_transaction` (src/main.rs lines 45-67).
The client entry is created with zero balances if absent; if the amount is
present and `available + sign*amount > 0` the available and total balances
move by `sign*amount`, otherwise nothing moves; in every case the record is
then inserted into the revertable-transaction history keyed by its tx id. -/
def Model.process_revertable_transaction (m : Model) (tr : Transaction) (sign : ℚ) : Model :=
  let client := (lookup tr.client m.clients).getD
    { client := tr.client, available := 0, held := 0, total := 0, locked := false }
  let client' :=
    match tr.amount with
    | some amount =>
        if client.available + sign * amount > 0 then
          { client with
              available := client.available + sign * amount,
              total := client.total + sign * amount }
        else
          client
    | none => client
  { m with
      clients := insertA tr.client client' m.clients,
      revertable_transactions := insertA tr.tx tr m.revertable_transactions }

/-- `Model::process_dispute_resolve_chargeback` (src/main.rs lines 69-124).
Guards, in source order: the referenced tx id must be in the revertable
history; its client must match; its type must be `deposit`; a dispute
requires the tx not already disputed while resolve/chargeback require it
disputed; the referenced record must carry an amount; the client must be in
the clients map.  Then the balances move according to the record type. -/
def Model.process_dispute_resolve_chargeback (m : Model) (tr : Transaction) : Model :=
  match lookup tr.tx m.revertable_transactions with
  | none => m
  | some original_tr =>
    if original_tr.client ≠ tr.client then m
    else if original_tr.tr_type ≠ "deposit" then m
    else if tr.tr_type = "dispute" ∧ tr.tx ∈ m.disputed_transactions then m
    else if tr.tr_type ≠ "dispute" ∧ tr.tx ∉ m.disputed_transactions then m
    else
      match original_tr.amount with
      | none => m
      | some amount =>
        match lookup tr.client m.clients with
        | none => m
        | some client =>
          if tr.tr_type = "dispute" then
            { m with
                clients := insertA tr.client
                  { client with
                      available := client.available - amount,
                      held := client.held + amount } m.clients,
                disputed_transactions := insertS tr.tx m.disputed_transactions }
          else if tr.tr_type = "resolve" then
            { m with
                clients := insertA tr.client
                  { client with
                      held := client.held - amount,
                      available := client.available + amount } m.clients,
                disputed_transactions := eraseS tr.tx m.disputed_transactions }
          else if tr.tr_type = "chargeback" then
            { m with
                clients := insertA tr.client
                  { client with
                      held := client.held - amount,
                      total := client.total - amount,
                      locked := true } m.clients,
                disputed_transactions := eraseS tr.tx m.disputed_transactions }
          else m

/-- `Model::process_transaction` (src/main.rs lines 126-147): dispatch on the
type keyword; an unknown keyword leaves the state unchanged. -/
def Model.process_transaction (m : Model) (tr : Transaction) : Model :=
  if tr.tr_type = "deposit" then m.process_revertable_transaction tr 1
  else if tr.tr_type = "withdrawal" then m.process_revertable_transaction tr (-1)
  else if tr.tr_type = "dispute" then m.process_dispute_resolve_chargeback tr
  else if tr.tr_type = "resolve" then m.process_dispute_resolve_chargeback tr
  else if tr.tr_type = "chargeback" then m.process_dispute_resolve_chargeback tr
  else m

/-- The replay loop of `Model::process_transactions` (src/main.rs lines
149-162): apply the decoded records strictly in input order. -/
def Model.process_transactions (l : List Transaction) (m : Model) : Model :=
  l.foldl Model.process_transaction m

/-! ### Association-list lemmas -/

theorem lookup_insertA {α : Type} (k c : ℕ) (v : α) (l : List (ℕ × α)) :
    lookup c (insertA k v l) = if k = c then some v else lookup c l := by
  induction l with
  | nil => simp [lookup, insertA]
  | cons hd tl ih =>
    obtain ⟨k', v'⟩ := hd
    by_cases h1 : k' = k
    · subst h1
      by_cases h2 : k' = c <;> simp [lookup, insertA, h2]
    · by_cases h2 : k = c
      · subst h2
        have h3 : ¬ k' = k := h1
        simp [lookup, insertA, h1, h3, ih]
      · have h2' : ¬ c = k := fun hh => h2 hh.symm
        by_cases h3 : k' = c <;> simp [lookup, insertA, h1, h2, h2', h3, ih]

theorem isSome_lookup_insertA {α : Type} (k c : ℕ) (v : α) (l : List (ℕ × α))
    (h : (lookup c l).isSome = true) : (lookup c (insertA k v l)).isSome = true := by
  rw [lookup_insertA]
  split <;> simp [h]

/-! ### The balance invariant (C1) -/

/-- Every client account recorded in the model has `total = available + held`. -/
def BalancedLedger (m : Model) : Prop :=
  ∀ c cl, lookup c m.clients = some cl → cl.total = cl.available + cl.held

theorem balanced_new : BalancedLedger Model.new := by
  intro c cl h
  simp [Model.new, lookup] at h

theorem balanced_revertable (m : Model) (tr : Transaction) (sign : ℚ)
    (h : BalancedLedger m) : BalancedLedger (m.process_revertable_transaction tr sign) := by
  intro c cl hc
  unfold Model.process_revertable_transaction at hc
  simp only [lookup_insertA] at hc
  have hbase : ∀ x : Client,
      (lookup tr.client m.clients).getD
        { client := tr.client, available := 0, held := 0, total := 0, locked := false } = x →
      x.total = x.available + x.held := by
    intro x hx
    cases hl : lookup tr.client m.clients with
    | none => rw [hl] at hx; simp at hx; rw [← hx]; norm_num
    | some y => rw [hl] at hx; simp at hx; rw [← hx]; exact h _ y hl
  split at hc
  · injection hc with hc
    split at hc
    · split at hc
      · subst hc
        dsimp only
        have hx := hbase _ rfl
        linarith
      · subst hc
        exact hbase _ rfl
    · subst hc
      exact hbase _ rfl
  · exact h c cl hc

theorem balanced_dispute_path (m : Model) (tr : Transaction)
    (h : BalancedLedger m) : BalancedLedger (m.process_dispute_resolve_chargeback tr) := by
  intro c cl hc
  unfold Model.process_dispute_resolve_chargeback at hc
  split at hc
  · exact h c cl hc
  · split at hc
    · exact h c cl hc
    · split at hc
      · exact h c cl hc
      · split at hc
        · exact h c cl hc
        · split at hc
          · exact h c cl hc
          · split at hc
            · exact h c cl hc
            · split at hc
              · exact h c cl hc
              · rename_i client hcl
                have hcb := h _ client hcl
                split at hc
                · simp only [lookup_insertA] at hc
                  split at hc
                  · injection hc with hc
                    subst hc
                    dsimp only
                    linarith
                  · exact h c cl hc
                · split at hc
                  · simp only [lookup_insertA] at hc
                    split at hc
                    · injection hc with hc
                      subst hc
                      dsimp only
                      linarith
                    · exact h c cl hc
                  · split at hc
                    · simp only [lookup_insertA] at hc
                      split at hc
                      · injection hc with hc
                        subst hc
                        dsimp only
                        linarith
                      · exact h c cl hc
                    · exact h c cl hc

theorem balanced_step (m : Model) (tr : Transaction)
    (h : BalancedLedger m) : BalancedLedger (m.process_transaction tr) := by
  unfold Model.process_transaction
  split
  · exact balanced_revertable m tr 1 h
  split
  · exact balanced_revertable m tr (-1) h
  split
  · exact balanced_dispute_path m tr h
  split
  · exact balanced_dispute_path m tr h
  split
  · exact balanced_dispute_path m tr h
  · exact h

theorem balanced_replay (l : List Transaction) (m : Model)
    (h : BalancedLedger m) : BalancedLedger (Model.process_transactions l m) := by
  induction l generalizing m with
  | nil => exact h
  | cons hd tl ih => exact ih _ (balanced_step m hd h)

/-- C1: For every client, after every transaction applied by the ledger
(starting from the empty model and any finite ordered sequence of input
records), the total of the client equals available plus held. -/
theorem C1_total_eq_available_add_held (l : List Transaction) (c : ℕ) (cl : Client)
    (h : lookup c (Model.process_transactions l Model.new).clients = some cl) :
    cl.total = cl.available + cl.held :=
  balanced_replay l Model.new balanced_new c cl h

/-- Witness for C1 at a concrete one-deposit run. -/
theorem C1_witness :
    lookup 1 (Model.process_transactions [⟨"deposit", 1, 1, some 10⟩] Model.new).clients
      = some ⟨1, 10, 0, 10, false⟩ ∧ (10 : ℚ) = 10 + 0 :=
  ⟨by norm_num [Model.process_transactions, Model.process_transaction,
      Model.process_revertable_transaction, Model.new, lookup, insertA],
   C1_total_eq_available_add_held [⟨"deposit", 1, 1, some 10⟩] 1 ⟨1, 10, 0, 10, false⟩
     (by norm_num [Model.process_transactions, Model.process_transaction,
        Model.process_revertable_transaction, Model.new, lookup, insertA])⟩

/-! ### Clients are never removed; the revertable history points at live clients -/

theorem clients_mono_revertable (m : Model) (tr : Transaction) (sign : ℚ) (c : ℕ)
    (h : (lookup c m.clients).isSome = true) :
    (lookup c (m.process_revertable_transaction tr sign).clients).isSome = true := by
  unfold Model.process_revertable_transaction
  exact isSome_lookup_insertA _ _ _ _ h

theorem clients_mono_dispute_path (m : Model) (tr : Transaction) (c : ℕ)
    (h : (lookup c m.clients).isSome = true) :
    (lookup c (m.process_dispute_resolve_chargeback tr).clients).isSome = true := by
  unfold Model.process_dispute_resolve_chargeback
  split
  · exact h
  · split
    · exact h
    · split
      · exact h
      · split
        · exact h
        · split
          · exact h
          · split
            · exact h
            · split
              · exact h
              · split
                · exact isSome_lookup_insertA _ _ _ _ h
                · split
                  · exact isSome_lookup_insertA _ _ _ _ h
                  · split
                    · exact isSome_lookup_insertA _ _ _ _ h
                    · exact h

theorem clients_mono_step (m : Model) (tr : Transaction) (c : ℕ)
    (h : (lookup c m.clients).isSome = true) :
    (lookup c (m.process_transaction tr).clients).isSome = true := by
  unfold Model.process_transaction
  split
  · exact clients_mono_revertable m tr 1 c h
  split
  · exact clients_mono_revertable m tr (-1) c h
  split
  · exact clients_mono_dispute_path m tr c h
  split
  · exact clients_mono_dispute_path m tr c h
  split
  · exact clients_mono_dispute_path m tr c h
  · exact h

theorem dispute_path_rev_unchanged (m : Model) (tr : Transaction) :
    (m.process_dispute_resolve_chargeback tr).revertable_transactions
      = m.revertable_transactions := by
  unfold Model.process_dispute_resolve_chargeback
  split
  · rfl
  · split
    · rfl
    · split
      · rfl
      · split
        · rfl
        · split
          · rfl
          · split
            · rfl
            · split
              · rfl
              · split
                · rfl
                · split
                  · rfl
                  · split
                    · rfl
                    · rfl

/-- Every record in the revertable history names a client that is present in
the clients map. -/
def RevClientsOK (m : Model) : Prop :=
  ∀ t otr, lookup t m.revertable_transactions = some otr →
    (lookup otr.client m.clients).isSome = true

theorem revClientsOK_new : RevClientsOK Model.new := by
  intro t otr h
  simp [Model.new, lookup] at h

theorem revClientsOK_revertable (m : Model) (tr : Transaction) (sign : ℚ)
    (h : RevClientsOK m) : RevClientsOK (m.process_revertable_transaction tr sign) := by
  intro t otr hl
  have hrev : (m.process_revertable_transaction tr sign).revertable_transactions
      = insertA tr.tx tr m.revertable_transactions := rfl
  rw [hrev, lookup_insertA] at hl
  split at hl
  · injection hl with hl
    subst hl
    unfold Model.process_revertable_transaction
    rw [lookup_insertA]
    simp
  · exact clients_mono_revertable m tr sign otr.client (h t otr hl)

theorem revClientsOK_dispute_path (m : Model) (tr : Transaction)
    (h : RevClientsOK m) : RevClientsOK (m.process_dispute_resolve_chargeback tr) := by
  intro t otr hl
  rw [dispute_path_rev_unchanged] at hl
  exact clients_mono_dispute_path m tr otr.client (h t otr hl)

theorem revClientsOK_step (m : Model) (tr : Transaction)
    (h : RevClientsOK m) : RevClientsOK (m.process_transaction tr) := by
  unfold Model.process_transaction
  split
  · exact revClientsOK_revertable m tr 1 h
  split
  · exact revClientsOK_revertable m tr (-1) h
  split
  · exact revClientsOK_dispute_path m tr h
  split
  · exact revClientsOK_dispute_path m tr h
  split
  · exact revClientsOK_dispute_path m tr h
  · exact h

theorem revClientsOK_replay (l : List Transaction) :
    RevClientsOK (Model.process_transactions l Model.new) := by
  have hgen : ∀ m : Model, RevClientsOK m → RevClientsOK (Model.process_transactions l m) := by
    induction l with
    | nil => intro m hm; exact hm
    | cons hd tl ih => intro m hm; exact ih _ (revClientsOK_step m hd hm)
  exact hgen Model.new revClientsOK_new

/-- The guard chain of `process_dispute_resolve_chargeback` (src/main.rs
lines 70-115) that would reach the warning `Client not found for
Dispute/Resolve/Chargeback` on line 115: the referenced record exists, its
client matches, it is a deposit, the disputed-set check for the record type
passes, it carries an amount, yet the clients map has no entry for the
client. -/
def hitsClientNotFound (m : Model) (tr : Transaction) : Prop :=
  ∃ original_tr,
    lookup tr.tx m.revertable_transactions = some original_tr ∧
    original_tr.client = tr.client ∧
    original_tr.tr_type = "deposit" ∧
    ((tr.tr_type = "dispute" ∧ tr.tx ∉ m.disputed_transactions) ∨
      (tr.tr_type ≠ "dispute" ∧ tr.tx ∈ m.disputed_transactions)) ∧
    (∃ amount, original_tr.amount = some amount) ∧
    lookup tr.client m.clients = none

/-- C10: In every state reachable from the empty model, every transaction id
stored in the revertable history belongs to a client id present in the
clients map, and consequently the `Client not found` error branch of the
dispute/resolve/chargeback handler can never be taken. -/
theorem C10_client_always_found (l : List Transaction) (tr : Transaction) :
    (∀ t otr,
        lookup t (Model.process_transactions l Model.new).revertable_transactions = some otr →
        (lookup otr.client (Model.process_transactions l Model.new).clients).isSome = true) ∧
    ¬ hitsClientNotFound (Model.process_transactions l Model.new) tr := by
  have hinv := revClientsOK_replay l
  refine ⟨hinv, ?_⟩
  rintro ⟨orig, hrev, hcl, -, -, -, hnone⟩
  have hsome := hinv tr.tx orig hrev
  rw [hcl, hnone] at hsome
  simp at hsome

/-- Witness for C10 at a concrete one-deposit run. -/
theorem C10_witness :
    (lookup 1 (Model.process_transactions [⟨"deposit", 1, 1, some 10⟩] Model.new).clients).isSome
        = true ∧
    ¬ hitsClientNotFound (Model.process_transactions [⟨"deposit", 1, 1, some 10⟩] Model.new)
        ⟨"dispute", 1, 1, none⟩ :=
  ⟨(C10_client_always_found [⟨"deposit", 1, 1, some 10⟩] ⟨"dispute", 1, 1, none⟩).1 1
      ⟨"deposit", 1, 1, some 10⟩
      (by norm_num [Model.process_transactions, Model.process_transaction,
        Model.process_revertable_transaction, Model.new, lookup, insertA]),
   (C10_client_always_found [⟨"deposit", 1, 1, some 10⟩] ⟨"dispute", 1, 1, none⟩).2⟩

/-- C9: The final client snapshot is a deterministic pure function of the
ordered input sequence: two replays of the same ordered sequence of records,
each starting from the empty model, agree on every per-client final state. -/
theorem C9_deterministic_replay (l1 l2 : List Transaction) (h : l1 = l2) (c : ℕ) :
    lookup c (Model.process_transactions l1 Model.new).clients
      = lookup c (Model.process_transactions l2 Model.new).clients ∧
    Model.process_transactions l1 Model.new = Model.process_transactions l2 Model.new := by
  subst h
  exact ⟨rfl, rfl⟩

/-- Witness for C9. -/
theorem C9_witness :
    lookup 1 (Model.process_transactions [⟨"deposit", 1, 1, some 10⟩] Model.new).clients
      = lookup 1 (Model.process_transactions [⟨"deposit", 1, 1, some 10⟩] Model.new).clients :=
  (C9_deterministic_replay [⟨"deposit", 1, 1, some 10⟩] [⟨"deposit", 1, 1, some 10⟩] rfl 1).1

/-- C4: A Withdrawal with a present amount is rejected, leaving the balances
of the client unchanged, when available minus amount is exactly zero or
negative; it succeeds and decreases available and total by the amount when
available minus amount is strictly positive. -/
theorem C4_withdrawal_boundary (m : Model) (tr : Transaction) (a : ℚ) (cl : Client)
    (htype : tr.tr_type = "withdrawal") (hamt : tr.amount = some a)
    (hcl : (lookup tr.client m.clients).getD
        { client := tr.client, available := 0, held := 0, total := 0, locked := false } = cl) :
    (cl.available - a ≤ 0 →
      lookup tr.client (m.process_transaction tr).clients = some cl) ∧
    (0 < cl.available - a →
      lookup tr.client (m.process_transaction tr).clients
        = some { cl with available := cl.available - a, total := cl.total - a }) := by
  have hnd : tr.tr_type ≠ "deposit" := by rw [htype]; decide
  unfold Model.process_transaction
  rw [if_neg hnd, if_pos htype]
  unfold Model.process_revertable_transaction
  rw [hamt, hcl, lookup_insertA, if_pos rfl]
  dsimp only
  constructor
  · intro hle
    have hcond : ¬ (cl.available + (-1) * a > 0) := by linarith
    rw [if_neg hcond]
  · intro hlt
    have hcond : cl.available + (-1) * a > 0 := by linarith
    rw [if_pos hcond]
    have h1 : cl.available + (-1) * a = cl.available - a := by ring
    have h2 : cl.total + (-1) * a = cl.total - a := by ring
    rw [h1, h2]

/-- Witness for C4: a withdrawal of 5 from an empty account is rejected, and
one of 5 from an account holding 10 succeeds. -/
theorem C4_witness :
    lookup 1 (Model.process_transaction Model.new ⟨"withdrawal", 1, 1, some 5⟩).clients
      = some ⟨1, 0, 0, 0, false⟩ ∧
    lookup 1 ((Model.process_transactions [⟨"deposit", 1, 1, some 10⟩] Model.new).process_transaction
        ⟨"withdrawal", 1, 2, some 5⟩).clients = some ⟨1, 5, 0, 5, false⟩ := by
  constructor
  · exact (C4_withdrawal_boundary Model.new ⟨"withdrawal", 1, 1, some 5⟩ 5 ⟨1, 0, 0, 0, false⟩
      rfl rfl rfl).1 (by norm_num)
  · have h := (C4_withdrawal_boundary
      (Model.process_transactions [⟨"deposit", 1, 1, some 10⟩] Model.new)
      ⟨"withdrawal", 1, 2, some 5⟩ 5 ⟨1, 10, 0, 10, false⟩ rfl rfl
      (by norm_num [Model.process_transactions, Model.process_transaction,
        Model.process_revertable_transaction, Model.new, lookup, insertA])).2 (by norm_num)
    rw [h]
    norm_num

/-! ### Rejected deposits/withdrawals (C3, C5) -/

/-- A Deposit/Withdrawal whose amount is missing or whose funds check fails
leaves the balances of the client and the disputed set unchanged, yet the
record is still inserted into the revertable history and an absent client
account is created with zero balances (src/main.rs line 66 runs
unconditionally). -/
theorem revertable_rejected (m : Model) (tr : Transaction) (sign : ℚ) (cl : Client)
    (hcl : (lookup tr.client m.clients).getD
        { client := tr.client, available := 0, held := 0, total := 0, locked := false } = cl)
    (hfail : tr.amount = none ∨ ∃ a, tr.amount = some a ∧ cl.available + sign * a ≤ 0) :
    lookup tr.client (m.process_revertable_transaction tr sign).clients = some cl ∧
    (m.process_revertable_transaction tr sign).disputed_transactions
      = m.disputed_transactions ∧
    lookup tr.tx (m.process_revertable_transaction tr sign).revertable_transactions
      = some tr := by
  unfold Model.process_revertable_transaction
  rw [hcl]
  rcases hfail with hnone | ⟨a, hamt, hle⟩
  · rw [hnone]
    dsimp only
    exact ⟨by rw [lookup_insertA, if_pos rfl], rfl, by rw [lookup_insertA, if_pos rfl]⟩
  · rw [hamt]
    dsimp only
    have hcond : ¬ (cl.available + sign * a > 0) := by linarith
    rw [if_neg hcond]
    exact ⟨by rw [lookup_insertA, if_pos rfl], rfl, by rw [lookup_insertA, if_pos rfl]⟩

/-- Counterexample to C3 as stated: a withdrawal of 5 from the empty model
fails its funds check, yet the revertable history is not exactly as it was
before — the record has been inserted (and the client account created). -/
theorem C3_counterexample :
    (Model.process_transaction Model.new ⟨"withdrawal", 1, 1, some 5⟩).revertable_transactions
      ≠ Model.new.revertable_transactions ∧
    lookup 1 (Model.process_transaction Model.new
        ⟨"withdrawal", 1, 1, some 5⟩).revertable_transactions
      = some ⟨"withdrawal", 1, 1, some 5⟩ := by
  constructor
  · norm_num [Model.process_transaction, Model.process_revertable_transaction,
      Model.new, lookup, insertA]
    simp
  · norm_num [Model.process_transaction, Model.process_revertable_transaction,
      Model.new, lookup, insertA]

/-- C3 (amended): For every Deposit or Withdrawal whose precondition check
fails (a Withdrawal rejected for insufficient funds, or a Deposit/Withdrawal
missing its amount), the balance fields of the client and the disputed set
are exactly as they were — but the record is nonetheless inserted into the
revertable history, and an absent client account is created with zero
balances. -/
theorem C3_rejection_effect (m : Model) (tr : Transaction) (sign : ℚ) (cl : Client)
    (htype : (tr.tr_type = "deposit" ∧ sign = 1) ∨ (tr.tr_type = "withdrawal" ∧ sign = -1))
    (hcl : (lookup tr.client m.clients).getD
        { client := tr.client, available := 0, held := 0, total := 0, locked := false } = cl)
    (hfail : tr.amount = none ∨ ∃ a, tr.amount = some a ∧ cl.available + sign * a ≤ 0) :
    lookup tr.client (m.process_transaction tr).clients = some cl ∧
    (m.process_transaction tr).disputed_transactions = m.disputed_transactions ∧
    lookup tr.tx (m.process_transaction tr).revertable_transactions = some tr := by
  unfold Model.process_transaction
  rcases htype with ⟨hdep, hsign⟩ | ⟨hwit, hsign⟩
  · rw [if_pos hdep, ← hsign]
    exact revertable_rejected m tr sign cl hcl hfail
  · have hnd : tr.tr_type ≠ "deposit" := by rw [hwit]; decide
    rw [if_neg hnd, if_pos hwit, ← hsign]
    exact revertable_rejected m tr sign cl hcl hfail

/-- Witness for C3 (amended) at the counterexample input. -/
theorem C3_witness :
    lookup 1 (Model.process_transaction Model.new ⟨"withdrawal", 1, 1, some 5⟩).clients
      = some ⟨1, 0, 0, 0, false⟩ ∧
    (Model.process_transaction Model.new ⟨"withdrawal", 1, 1, some 5⟩).disputed_transactions
      = Model.new.disputed_transactions ∧
    lookup 1 (Model.process_transaction Model.new
        ⟨"withdrawal", 1, 1, some 5⟩).revertable_transactions
      = some ⟨"withdrawal", 1, 1, some 5⟩ :=
  C3_rejection_effect Model.new ⟨"withdrawal", 1, 1, some 5⟩ (-1) ⟨1, 0, 0, 0, false⟩
    (Or.inr ⟨rfl, rfl⟩) rfl (Or.inr ⟨5, rfl, by norm_num⟩)

/-- Counterexample to C5 as stated: after deposit 10, withdrawal 5 and a
dispute of the deposit, available is -5; a further deposit of 3 is then
rejected by the `available + amount > 0` check, so available stays -5
instead of increasing by the amount to -2. -/
theorem C5_counterexample :
    lookup 1 ((Model.process_transactions
      [⟨"deposit", 1, 1, some 10⟩, ⟨"withdrawal", 1, 2, some 5⟩, ⟨"dispute", 1, 1, none⟩,
       ⟨"deposit", 1, 3, some 3⟩] Model.new).clients) = some ⟨1, -5, 10, 5, false⟩ ∧
    ((-5 : ℚ) ≠ -5 + 3) := by
  constructor
  · norm_num [Model.process_transactions, Model.process_transaction,
      Model.process_revertable_transaction, Model.process_dispute_resolve_chargeback,
      Model.new, lookup, insertA, insertS, eraseS]
  · norm_num

/-- C5 (amended): A Deposit whose amount is present increases available and
total of the client by the amount whenever the resulting available is
strictly positive (in particular from any state with non-negative
available and positive amount), leaves the balances unchanged otherwise,
and in every case stores the record in the revertable history keyed by its
transaction id. -/
theorem C5_deposit_effect (m : Model) (tr : Transaction) (a : ℚ) (cl : Client)
    (htype : tr.tr_type = "deposit") (hamt : tr.amount = some a)
    (hcl : (lookup tr.client m.clients).getD
        { client := tr.client, available := 0, held := 0, total := 0, locked := false } = cl) :
    (0 < cl.available + a →
      lookup tr.client (m.process_transaction tr).clients
        = some { cl with available := cl.available + a, total := cl.total + a }) ∧
    (cl.available + a ≤ 0 →
      lookup tr.client (m.process_transaction tr).clients = some cl) ∧
    lookup tr.tx (m.process_transaction tr).revertable_transactions = some tr := by
  unfold Model.process_transaction
  rw [if_pos htype]
  unfold Model.process_revertable_transaction
  rw [hamt, hcl]
  dsimp only
  refine ⟨?_, ?_, ?_⟩
  · intro hlt
    rw [lookup_insertA, if_pos rfl]
    have hcond : cl.available + 1 * a > 0 := by linarith
    rw [if_pos hcond]
    have h1 : cl.available + 1 * a = cl.available + a := by ring
    have h2 : cl.total + 1 * a = cl.total + a := by ring
    rw [h1, h2]
  · intro hle
    rw [lookup_insertA, if_pos rfl]
    have hcond : ¬ (cl.available + 1 * a > 0) := by linarith
    rw [if_neg hcond]
  · rw [lookup_insertA, if_pos rfl]

/-- Witness for C5 (amended): a deposit of 10 into the empty model. -/
theorem C5_witness :
    lookup 1 (Model.process_transaction Model.new ⟨"deposit", 1, 1, some 10⟩).clients
      = some ⟨1, 10, 0, 10, false⟩ ∧
    lookup 1 (Model.process_transaction Model.new
        ⟨"deposit", 1, 1, some 10⟩).revertable_transactions
      = some ⟨"deposit", 1, 1, some 10⟩ := by
  have h := C5_deposit_effect Model.new ⟨"deposit", 1, 1, some 10⟩ 10 ⟨1, 0, 0, 0, false⟩
    rfl rfl rfl
  constructor
  · have h1 := h.1 (by norm_num)
    rw [h1]
    norm_num
  · exact h.2.2

/-! ### Dispute / Resolve / Chargeback characterizations -/

theorem mem_insertS_self (t : ℕ) (l : List ℕ) : t ∈ insertS t l := by
  unfold insertS
  split
  · assumption
  · exact List.mem_cons_self t l

theorem not_mem_eraseS (t : ℕ) (l : List ℕ) : t ∉ eraseS t l := by
  simp [eraseS, List.mem_filter]

/-- A Dispute whose guards all pass: the amount moves from available to held
and the tx id enters the disputed set; nothing else changes. -/
theorem dispute_applies (m : Model) (tr orig : Transaction) (a : ℚ) (client : Client)
    (ht : tr.tr_type = "dispute") (hrev : lookup tr.tx m.revertable_transactions = some orig)
    (hc : orig.client = tr.client) (hdep : orig.tr_type = "deposit")
    (hnd : tr.tx ∉ m.disputed_transactions) (hamt : orig.amount = some a)
    (hcl : lookup tr.client m.clients = some client) :
    m.process_transaction tr =
      ⟨insertA tr.client
          { client with available := client.available - a, held := client.held + a } m.clients,
        m.revertable_transactions, insertS tr.tx m.disputed_transactions⟩ := by
  have h1 : tr.tr_type ≠ "deposit" := by rw [ht]; decide
  have h2 : tr.tr_type ≠ "withdrawal" := by rw [ht]; decide
  unfold Model.process_transaction
  rw [if_neg h1, if_neg h2, if_pos ht]
  unfold Model.process_dispute_resolve_chargeback
  rw [hrev]
  dsimp only
  have g1 : ¬ (orig.client ≠ tr.client) := fun hh => hh hc
  have g2 : ¬ (orig.tr_type ≠ "deposit") := fun hh => hh hdep
  have g3 : ¬ (tr.tr_type = "dispute" ∧ tr.tx ∈ m.disputed_transactions) := fun hh => hnd hh.2
  have g4 : ¬ (tr.tr_type ≠ "dispute" ∧ tr.tx ∉ m.disputed_transactions) := fun hh => hh.1 ht
  rw [if_neg g1, if_neg g2, if_neg g3, if_neg g4, hamt]
  dsimp only
  rw [hcl]
  dsimp only
  rw [if_pos ht]

/-- A Resolve whose guards all pass: the amount moves back from held to
available and the tx id leaves the disputed set. -/
theorem resolve_applies (m : Model) (tr orig : Transaction) (a : ℚ) (client : Client)
    (ht : tr.tr_type = "resolve") (hrev : lookup tr.tx m.revertable_transactions = some orig)
    (hc : orig.client = tr.client) (hdep : orig.tr_type = "deposit")
    (hd : tr.tx ∈ m.disputed_transactions) (hamt : orig.amount = some a)
    (hcl : lookup tr.client m.clients = some client) :
    m.process_transaction tr =
      ⟨insertA tr.client
          { client with held := client.held - a, available := client.available + a } m.clients,
        m.revertable_transactions, eraseS tr.tx m.disputed_transactions⟩ := by
  have h1 : tr.tr_type ≠ "deposit" := by rw [ht]; decide
  have h2 : tr.tr_type ≠ "withdrawal" := by rw [ht]; decide
  have h3 : tr.tr_type ≠ "dispute" := by rw [ht]; decide
  unfold Model.process_transaction
  rw [if_neg h1, if_neg h2, if_neg h3, if_pos ht]
  unfold Model.process_dispute_resolve_chargeback
  rw [hrev]
  dsimp only
  have g1 : ¬ (orig.client ≠ tr.client) := fun hh => hh hc
  have g2 : ¬ (orig.tr_type ≠ "deposit") := fun hh => hh hdep
  have g3 : ¬ (tr.tr_type = "dispute" ∧ tr.tx ∈ m.disputed_transactions) := fun hh => h3 hh.1
  have g4 : ¬ (tr.tr_type ≠ "dispute" ∧ tr.tx ∉ m.disputed_transactions) := fun hh => hh.2 hd
  rw [if_neg g1, if_neg g2, if_neg g3, if_neg g4, hamt]
  dsimp only
  rw [hcl]
  dsimp only
  rw [if_neg h3, if_pos ht]

/-- A Chargeback whose guards all pass: the amount leaves held and total,
the tx id leaves the disputed set, and the client becomes locked. -/
theorem chargeback_applies (m : Model) (tr orig : Transaction) (a : ℚ) (client : Client)
    (ht : tr.tr_type = "chargeback") (hrev : lookup tr.tx m.revertable_transactions = some orig)
    (hc : orig.client = tr.client) (hdep : orig.tr_type = "deposit")
    (hd : tr.tx ∈ m.disputed_transactions) (hamt : orig.amount = some a)
    (hcl : lookup tr.client m.clients = some client) :
    m.process_transaction tr =
      ⟨insertA tr.client
          { client with held := client.held - a, total := client.total - a, locked := true }
          m.clients,
        m.revertable_transactions, eraseS tr.tx m.disputed_transactions⟩ := by
  have h1 : tr.tr_type ≠ "deposit" := by rw [ht]; decide
  have h2 : tr.tr_type ≠ "withdrawal" := by rw [ht]; decide
  have h3 : tr.tr_type ≠ "dispute" := by rw [ht]; decide
  have h4 : tr.tr_type ≠ "resolve" := by rw [ht]; decide
  unfold Model.process_transaction
  rw [if_neg h1, if_neg h2, if_neg h3, if_neg h4, if_pos ht]
  unfold Model.process_dispute_resolve_chargeback
  rw [hrev]
  dsimp only
  have g1 : ¬ (orig.client ≠ tr.client) := fun hh => hh hc
  have g2 : ¬ (orig.tr_type ≠ "deposit") := fun hh => hh hdep
  have g3 : ¬ (tr.tr_type = "dispute" ∧ tr.tx ∈ m.disputed_transactions) := fun hh => h3 hh.1
  have g4 : ¬ (tr.tr_type ≠ "dispute" ∧ tr.tx ∉ m.disputed_transactions) := fun hh => hh.2 hd
  rw [if_neg g1, if_neg g2, if_neg g3, if_neg g4, hamt]
  dsimp only
  rw [hcl]
  dsimp only
  rw [if_neg h3, if_neg h4, if_pos ht]

/-- A second Dispute on an already-disputed tx id is rejected with no state
change at all. -/
theorem dispute_already_disputed (m : Model) (tr : Transaction)
    (ht : tr.tr_type = "dispute") (hd : tr.tx ∈ m.disputed_transactions) :
    m.process_transaction tr = m := by
  have h1 : tr.tr_type ≠ "deposit" := by rw [ht]; decide
  have h2 : tr.tr_type ≠ "withdrawal" := by rw [ht]; decide
  unfold Model.process_transaction
  rw [if_neg h1, if_neg h2, if_pos ht]
  unfold Model.process_dispute_resolve_chargeback
  cases hrev : lookup tr.tx m.revertable_transactions with
  | none => rfl
  | some orig =>
    dsimp only
    by_cases g1 : orig.client ≠ tr.client
    · rw [if_pos g1]
    rw [if_neg g1]
    by_cases g2 : orig.tr_type ≠ "deposit"
    · rw [if_pos g2]
    rw [if_neg g2]
    rw [if_pos ⟨ht, hd⟩]

/-- C2: For an accepted Deposit with id t and amount a (same client, not
currently disputed): a Dispute moves exactly a from available to held and
marks t disputed; a following Resolve moves a back and removes t from the
disputed set; a following Chargeback instead subtracts a from both held and
total, removes t from the disputed set and locks the client; and while t is
disputed, a second Dispute on t is rejected with no state change. -/
theorem C2_dispute_lifecycle (s : Model) (c t : ℕ) (a : ℚ) (orig : Transaction) (cl : Client)
    (horig : lookup t s.revertable_transactions = some orig)
    (htype : orig.tr_type = "deposit") (hclient : orig.client = c)
    (hamt : orig.amount = some a)
    (hnd : t ∉ s.disputed_transactions) (hcl : lookup c s.clients = some cl) :
    lookup c (s.process_transaction ⟨"dispute", c, t, none⟩).clients
      = some { cl with available := cl.available - a, held := cl.held + a } ∧
    t ∈ (s.process_transaction ⟨"dispute", c, t, none⟩).disputed_transactions ∧
    lookup c ((s.process_transaction ⟨"dispute", c, t, none⟩).process_transaction
        ⟨"resolve", c, t, none⟩).clients = some cl ∧
    t ∉ ((s.process_transaction ⟨"dispute", c, t, none⟩).process_transaction
        ⟨"resolve", c, t, none⟩).disputed_transactions ∧
    lookup c ((s.process_transaction ⟨"dispute", c, t, none⟩).process_transaction
        ⟨"chargeback", c, t, none⟩).clients
      = some ⟨cl.client, cl.available - a, cl.held, cl.total - a, true⟩ ∧
    t ∉ ((s.process_transaction ⟨"dispute", c, t, none⟩).process_transaction
        ⟨"chargeback", c, t, none⟩).disputed_transactions ∧
    (s.process_transaction ⟨"dispute", c, t, none⟩).process_transaction
        ⟨"dispute", c, t, none⟩
      = s.process_transaction ⟨"dispute", c, t, none⟩ := by
  have hs1 := dispute_applies s ⟨"dispute", c, t, none⟩ orig a cl rfl horig hclient htype
    hnd hamt hcl
  have hmem : t ∈ insertS t s.disputed_transactions := mem_insertS_self t _
  have hlook1 : lookup c (insertA c
        { cl with available := cl.available - a, held := cl.held + a } s.clients)
      = some { cl with available := cl.available - a, held := cl.held + a } := by
    rw [lookup_insertA, if_pos rfl]
  have hs2 := resolve_applies
    (⟨insertA c { cl with available := cl.available - a, held := cl.held + a } s.clients,
      s.revertable_transactions, insertS t s.disputed_transactions⟩ : Model)
    ⟨"resolve", c, t, none⟩ orig a
    { cl with available := cl.available - a, held := cl.held + a }
    rfl horig hclient htype hmem hamt hlook1
  have hs3 := chargeback_applies
    (⟨insertA c { cl with available := cl.available - a, held := cl.held + a } s.clients,
      s.revertable_transactions, insertS t s.disputed_transactions⟩ : Model)
    ⟨"chargeback", c, t, none⟩ orig a
    { cl with available := cl.available - a, held := cl.held + a }
    rfl horig hclient htype hmem hamt hlook1
  refine ⟨?_, ?_, ?_, ?_, ?_, ?_, ?_⟩
  · rw [hs1]
    exact hlook1
  · rw [hs1]
    exact hmem
  · rw [hs1, hs2]
    dsimp only
    rw [lookup_insertA, if_pos rfl]
    have e1 : cl.available - a + a = cl.available := by ring
    have e3 : cl.held + a - a = cl.held := by ring
    rw [e1, e3]
  · rw [hs1, hs2]
    exact not_mem_eraseS t _
  · rw [hs1, hs3]
    dsimp only
    rw [lookup_insertA, if_pos rfl]
    have e3 : cl.held + a - a = cl.held := by ring
    rw [e3]
  · rw [hs1, hs3]
    exact not_mem_eraseS t _
  · rw [hs1]
    exact dispute_already_disputed _ ⟨"dispute", c, t, none⟩ rfl hmem

/-- Witness for C2 on the concrete run deposit(1,1,10) followed by the
lifecycle records. -/
theorem C2_witness :
    lookup 1 ((Model.process_transactions [⟨"deposit", 1, 1, some 10⟩]
        Model.new).process_transaction ⟨"dispute", 1, 1, none⟩).clients
      = some ⟨1, 0, 10, 10, false⟩ ∧
    1 ∈ ((Model.process_transactions [⟨"deposit", 1, 1, some 10⟩]
        Model.new).process_transaction ⟨"dispute", 1, 1, none⟩).disputed_transactions ∧
    lookup 1 (((Model.process_transactions [⟨"deposit", 1, 1, some 10⟩]
        Model.new).process_transaction ⟨"dispute", 1, 1, none⟩).process_transaction
        ⟨"resolve", 1, 1, none⟩).clients = some ⟨1, 10, 0, 10, false⟩ ∧
    lookup 1 (((Model.process_transactions [⟨"deposit", 1, 1, some 10⟩]
        Model.new).process_transaction ⟨"dispute", 1, 1, none⟩).process_transaction
        ⟨"chargeback", 1, 1, none⟩).clients = some ⟨1, 0, 0, 0, true⟩ ∧
    ((Model.process_transactions [⟨"deposit", 1, 1, some 10⟩]
        Model.new).process_transaction ⟨"dispute", 1, 1, none⟩).process_transaction
        ⟨"dispute", 1, 1, none⟩
      = (Model.process_transactions [⟨"deposit", 1, 1, some 10⟩]
          Model.new).process_transaction ⟨"dispute", 1, 1, none⟩ := by
  have h := C2_dispute_lifecycle
    (Model.process_transactions [⟨"deposit", 1, 1, some 10⟩] Model.new) 1 1 10
    ⟨"deposit", 1, 1, some 10⟩ ⟨1, 10, 0, 10, false⟩
    (by norm_num [Model.process_transactions, Model.process_transaction,
      Model.process_revertable_transaction, Model.new, lookup, insertA])
    rfl rfl rfl
    (by norm_num [Model.process_transactions, Model.process_transaction,
      Model.process_revertable_transaction, Model.new, lookup, insertA])
    (by norm_num [Model.process_transactions, Model.process_transaction,
      Model.process_revertable_transaction, Model.new, lookup, insertA])
  obtain ⟨h1, h2, h3, h4, h5, h6, h7⟩ := h
  refine ⟨?_, h2, h3, ?_, h7⟩
  · rw [h1]
    norm_num
  · rw [h5]
    norm_num

/-- Counterexample to C6 as stated: with the withdrawal tx 2 stored in the
revertable history, a Dispute on tx 2 is rejected and the state does not
change — tx 2 does not become disputed and no funds move to held. -/
theorem C6_counterexample :
    lookup 2 ((Model.process_transactions
        [⟨"deposit", 1, 1, some 10⟩, ⟨"withdrawal", 1, 2, some 5⟩]
        Model.new).revertable_transactions) = some ⟨"withdrawal", 1, 2, some 5⟩ ∧
    Model.process_transaction (Model.process_transactions
        [⟨"deposit", 1, 1, some 10⟩, ⟨"withdrawal", 1, 2, some 5⟩] Model.new)
        ⟨"dispute", 1, 2, none⟩
      = Model.process_transactions
          [⟨"deposit", 1, 1, some 10⟩, ⟨"withdrawal", 1, 2, some 5⟩] Model.new := by
  constructor
  · norm_num [Model.process_transactions, Model.process_transaction,
      Model.process_revertable_transaction, Model.process_dispute_resolve_chargeback,
      Model.new, lookup, insertA, insertS, eraseS]
  · norm_num [Model.process_transactions, Model.process_transaction,
      Model.process_revertable_transaction, Model.process_dispute_resolve_chargeback,
      Model.new, lookup, insertA, insertS, eraseS]
    simp

/-- C6 (amended): a stored Withdrawal record is not subject to the dispute
path: a Dispute referencing a revertable record of type withdrawal is
rejected with no state change — only deposit records can be disputed
(src/main.rs line 75). -/
theorem C6_withdrawal_not_disputable (s : Model) (tr orig : Transaction)
    (ht : tr.tr_type = "dispute")
    (hrev : lookup tr.tx s.revertable_transactions = some orig)
    (hw : orig.tr_type = "withdrawal") :
    s.process_transaction tr = s := by
  have h1 : tr.tr_type ≠ "deposit" := by rw [ht]; decide
  have h2 : tr.tr_type ≠ "withdrawal" := by rw [ht]; decide
  have hnd : orig.tr_type ≠ "deposit" := by rw [hw]; decide
  unfold Model.process_transaction
  rw [if_neg h1, if_neg h2, if_pos ht]
  unfold Model.process_dispute_resolve_chargeback
  rw [hrev]
  dsimp only
  by_cases g1 : orig.client ≠ tr.client
  · rw [if_pos g1]
  · rw [if_neg g1, if_pos hnd]

/-- Witness for C6 (amended) at the counterexample state. -/
theorem C6_witness :
    Model.process_transaction (Model.process_transactions
        [⟨"deposit", 1, 1, some 10⟩, ⟨"withdrawal", 1, 2, some 5⟩] Model.new)
        ⟨"dispute", 1, 2, none⟩
      = Model.process_transactions
          [⟨"deposit", 1, 1, some 10⟩, ⟨"withdrawal", 1, 2, some 5⟩] Model.new :=
  C6_withdrawal_not_disputable
    (Model.process_transactions
      [⟨"deposit", 1, 1, some 10⟩, ⟨"withdrawal", 1, 2, some 5⟩] Model.new)
    ⟨"dispute", 1, 2, none⟩ ⟨"withdrawal", 1, 2, some 5⟩ rfl
    (by norm_num [Model.process_transactions, Model.process_transaction,
      Model.process_revertable_transaction, Model.new, lookup, insertA])
    rfl

/-- Counterexample to C7 as stated: a Withdrawal carrying amount -5 is not
rejected: applied to the empty model it passes the funds check and raises
available and total of client 1 from 0 to 5, and the record is stored. -/
theorem C7_counterexample :
    lookup 1 (Model.process_transaction Model.new ⟨"withdrawal", 1, 1, some (-5)⟩).clients
      = some ⟨1, 5, 0, 5, false⟩ ∧
    lookup 1 (Model.process_transaction Model.new
        ⟨"withdrawal", 1, 1, some (-5)⟩).revertable_transactions
      = some ⟨"withdrawal", 1, 1, some (-5)⟩ ∧
    ((5 : ℚ) ≠ 0) := by
  refine ⟨?_, ?_, by norm_num⟩ <;>
    norm_num [Model.process_transaction, Model.process_revertable_transaction,
      Model.new, lookup, insertA]

/-- C7 (amended): negative amounts are not rejected by the decoder; they
reach the ledger and are processed by the ordinary funds rule.  In
particular a Withdrawal with a negative amount a, on a client whose
available is non-negative, passes the check and increases available and
total by -a, and the record is stored in the revertable history. -/
theorem C7_negative_amount_processed (m : Model) (tr : Transaction) (a : ℚ) (cl : Client)
    (htype : tr.tr_type = "withdrawal") (hamt : tr.amount = some a) (hneg : a < 0)
    (hcl : (lookup tr.client m.clients).getD
        { client := tr.client, available := 0, held := 0, total := 0, locked := false } = cl)
    (hav : 0 ≤ cl.available) :
    lookup tr.client (m.process_transaction tr).clients
      = some { cl with available := cl.available - a, total := cl.total - a } ∧
    lookup tr.tx (m.process_transaction tr).revertable_transactions = some tr := by
  have hnd : tr.tr_type ≠ "deposit" := by rw [htype]; decide
  unfold Model.process_transaction
  rw [if_neg hnd, if_pos htype]
  unfold Model.process_revertable_transaction
  rw [hamt, hcl]
  dsimp only
  have hcond : cl.available + (-1) * a > 0 := by linarith
  constructor
  · rw [lookup_insertA, if_pos rfl, if_pos hcond]
    have e1 : cl.available + (-1) * a = cl.available - a := by ring
    have e2 : cl.total + (-1) * a = cl.total - a := by ring
    rw [e1, e2]
  · rw [lookup_insertA, if_pos rfl]

/-- Witness for C7 (amended) at the counterexample input. -/
theorem C7_witness :
    lookup 1 (Model.process_transaction Model.new ⟨"withdrawal", 1, 1, some (-5)⟩).clients
      = some ⟨1, 5, 0, 5, false⟩ ∧
    lookup 1 (Model.process_transaction Model.new
        ⟨"withdrawal", 1, 1, some (-5)⟩).revertable_transactions
      = some ⟨"withdrawal", 1, 1, some (-5)⟩ := by
  have h := C7_negative_amount_processed Model.new ⟨"withdrawal", 1, 1, some (-5)⟩ (-5)
    ⟨1, 0, 0, 0, false⟩ rfl rfl (by norm_num) rfl (by norm_num)
  constructor
  · rw [h.1]
    norm_num
  · exact h.2

/-- C8: A Resolve referencing a transaction id that is not currently in the
disputed set is rejected and leaves the whole ledger state, in particular
the referenced client, unchanged. -/
theorem C8_resolve_needs_dispute (s : Model) (tr : Transaction)
    (htype : tr.tr_type = "resolve") (hnd : tr.tx ∉ s.disputed_transactions) :
    s.process_transaction tr = s := by
  have h1 : tr.tr_type ≠ "deposit" := by rw [htype]; decide
  have h2 : tr.tr_type ≠ "withdrawal" := by rw [htype]; decide
  have h3 : tr.tr_type ≠ "dispute" := by rw [htype]; decide
  unfold Model.process_transaction
  rw [if_neg h1, if_neg h2, if_neg h3, if_pos htype]
  unfold Model.process_dispute_resolve_chargeback
  cases hrev : lookup tr.tx s.revertable_transactions with
  | none => rfl
  | some orig =>
    dsimp only
    by_cases g1 : orig.client ≠ tr.client
    · rw [if_pos g1]
    rw [if_neg g1]
    by_cases g2 : orig.tr_type ≠ "deposit"
    · rw [if_pos g2]
    rw [if_neg g2]
    have g3 : ¬ (tr.tr_type = "dispute" ∧ tr.tx ∈ s.disputed_transactions) := fun hh => h3 hh.1
    rw [if_neg g3, if_pos ⟨h3, hnd⟩]

/-- Witness for C8 on the concrete scenario deposit(1,1,10) then
resolve(1,1) with no prior dispute: the resolve is rejected and client 1
ends at available 10, held 0, total 10, unlocked. -/
theorem C8_witness :
    Model.process_transaction
        (Model.process_transactions [⟨"deposit", 1, 1, some 10⟩] Model.new)
        ⟨"resolve", 1, 1, none⟩
      = Model.process_transactions [⟨"deposit", 1, 1, some 10⟩] Model.new ∧
    lookup 1 (Model.process_transactions
        [⟨"deposit", 1, 1, some 10⟩, ⟨"resolve", 1, 1, none⟩] Model.new).clients
      = some ⟨1, 10, 0, 10, false⟩ := by
  constructor
  · exact C8_resolve_needs_dispute
      (Model.process_transactions [⟨"deposit", 1, 1, some 10⟩] Model.new)
      ⟨"resolve", 1, 1, none⟩ rfl
      (by norm_num [Model.process_transactions, Model.process_transaction,
        Model.process_revertable_transaction, Model.new, insertA])
  · norm_num [Model.process_transactions, Model.process_transaction,
      Model.process_revertable_transaction, Model.process_dispute_resolve_chargeback,
      Model.new, lookup, insertA, insertS, eraseS]
